import Mathlib

/-!
Verification of the log parsing and error-extraction pipeline of the
mcp-error-relay server (src/services/logService.ts, src/services/formatter.ts).

The TypeScript code is shallowly embedded: strings are Lean `String`s viewed
through their `List Char` data, the file system is a list of directory
entries, and the JavaScript `Date` parser together with the current clock is
passed in as an explicit parameter `getTime : String → Option Int`
(`none` models an Invalid Date, whose `getTime()` is NaN: every numeric
comparison against NaN is false).  Lower-casing is modelled on ASCII, which
covers every string the code compares.
-/

namespace ErrorRelay

/-! ### Characters and JS string primitives -/

/-- The character class matched by JavaScript `\s` (also the set removed by
`String.prototype.trim`). -/
def jsWhitespace (c : Char) : Bool :=
  c == ' ' || c == '\t' || c == '\n' || c == '\r' || c == '\u000b' || c == '\u000c' ||
  c == '\u00A0' || c == '\u1680' || ('\u2000' ≤ c && c ≤ '\u200A') ||
  c == '\u2028' || c == '\u2029' || c == '\u202F' || c == '\u205F' ||
  c == '\u3000' || c == '\uFEFF'

/-- JavaScript line terminators: the characters `.` does not match and that
delimit `$` in non-multiline mode. -/
def jsLineTerminator (c : Char) : Bool :=
  c == '\n' || c == '\r' || c == '\u2028' || c == '\u2029'

/-- The digits matched by `\d`. -/
def isDigitChar (c : Char) : Bool := '0' ≤ c && c ≤ '9'

/-- `needle` is a prefix of `hay` (character-exact). -/
def isPrefixOfChars : List Char → List Char → Bool
  | [], _ => true
  | _ :: _, [] => false
  | a :: as, b :: bs => a == b && isPrefixOfChars as bs

/-- `needle` occurs as a contiguous substring of `hay`
(JavaScript `String.prototype.includes`). -/
def containsChars (needle : List Char) : List Char → Bool
  | [] => isPrefixOfChars needle []
  | c :: t => isPrefixOfChars needle (c :: t) || containsChars needle t

/-- JavaScript `s.includes(sub)`. -/
def strIncludes (s sub : String) : Bool := containsChars sub.data s.data

/-- JavaScript `s.toLowerCase()`, restricted to ASCII case mapping. -/
def jsToLower (s : String) : String := String.mk (s.data.map Char.toLower)

/-- JavaScript `s.split("\n")`. -/
def splitNl : List Char → List String
  | [] => [""]
  | c :: rest =>
    let r := splitNl rest
    if c == '\n' then "" :: r
    else
      match r with
      | [] => [String.mk [c]]
      | s :: ss => String.mk (c :: s.data) :: ss

/-- JavaScript `content.split("\n")` on a `String`. -/
def jsSplitLines (s : String) : List String := splitNl s.data

/-- JavaScript `Array.prototype.join(sep)`. -/
def joinWith (sep : String) : List String → String
  | [] => ""
  | [s] => s
  | s :: rest => s ++ sep ++ joinWith sep rest

/-- JavaScript `s.trim()`: strip leading and trailing `\s` characters. -/
def jsTrim (s : String) : String :=
  String.mk (((s.data.dropWhile jsWhitespace).reverse.dropWhile jsWhitespace).reverse)

/-! ### Regex primitives

The two regular expressions of the service are deterministic once greedy
matching is unfolded, so they are embedded as straight-line parsers over
`List Char`. -/

/-- Match exactly `n` characters of class `\d`, returning them and the rest. -/
def expectDigits : Nat → List Char → Option (List Char × List Char)
  | 0, l => some ([], l)
  | _ + 1, [] => none
  | n + 1, c :: l =>
    if isDigitChar c then (expectDigits n l).map (fun p => (c :: p.1, p.2)) else none

/-- Match one character of class `p`. -/
def expectChar (p : Char → Bool) : List Char → Option (Char × List Char)
  | [] => none
  | c :: l => if p c then some (c, l) else none

/-- Maximal run of characters of class `p` (greedy `p*`). -/
def takeRun (p : Char → Bool) : List Char → List Char × List Char
  | [] => ([], [])
  | c :: l =>
    if p c then
      let r := takeRun p l
      (c :: r.1, r.2)
    else ([], c :: l)

/-- Sequencing of parser results: `none` aborts the match. -/
def pbind {α β : Type} : Option α → (α → Option β) → Option β
  | none, _ => none
  | some a, f => f a

/-- Greedy `(?:\.\d{3})?`: consume `.` plus three digits when present,
otherwise consume nothing.  (Skipping a successful match can never rescue the
overall regex here, because the characters allowed to follow are never `.`.) -/
def parseOptMillis (l : List Char) : List Char × List Char :=
  match l with
  | '.' :: rest =>
    match expectDigits 3 rest with
    | some (ds, r) => ('.' :: ds, r)
    | none => ([], l)
  | _ => ([], l)

/-! ### The header regular expression

`HEADER_RE = /^(\d{4}-\d{2}-\d{2}T\d{2}:\d{2}:\d{2}(?:\.\d{3})?Z)\s+\[([^\]]+)\]\s+\[([^\]]+)\]\s+(.*)$/i`

The `i` flag only affects the letters `T` and `Z`.  Note the trailing `Z` of
the timestamp group carries no `?`: it is mandatory. -/

/-- Parse the timestamp group of `HEADER_RE`, returning the captured
characters and the remainder of the line. -/
def parseHeaderTs (l : List Char) : Option (List Char × List Char) :=
  pbind (expectDigits 4 l) fun p1 =>
  pbind (expectChar (fun c => c == '-') p1.2) fun q1 =>
  pbind (expectDigits 2 q1.2) fun p2 =>
  pbind (expectChar (fun c => c == '-') p2.2) fun q2 =>
  pbind (expectDigits 2 q2.2) fun p3 =>
  pbind (expectChar (fun c => c == 'T' || c == 't') p3.2) fun qt =>
  pbind (expectDigits 2 qt.2) fun p4 =>
  pbind (expectChar (fun c => c == ':') p4.2) fun q3 =>
  pbind (expectDigits 2 q3.2) fun p5 =>
  pbind (expectChar (fun c => c == ':') p5.2) fun q4 =>
  pbind (expectDigits 2 q4.2) fun p6 =>
  pbind (expectChar (fun c => c == 'Z' || c == 'z') (parseOptMillis p6.2).2) fun qz =>
  some (p1.1 ++ q1.1 :: p2.1 ++ q2.1 :: p3.1 ++ qt.1 :: p4.1 ++ q3.1 :: p5.1 ++
    q4.1 :: p6.1 ++ (parseOptMillis p6.2).1 ++ [qz.1], qz.2)

/-- Greedy `\s+`: at least one whitespace character, maximal run.  (The
following regex atom is always `[` or `(.*)$`, neither of which accepts a
whitespace character given up by backtracking, so maximal matching is exact.) -/
def expectWs (l : List Char) : Option (List Char) :=
  let r := takeRun jsWhitespace l
  if r.1.isEmpty then none else some r.2

/-- `\[([^\]]+)\]`: a bracketed non-empty token without `]`. -/
def expectBracketTok (l : List Char) : Option (List Char × List Char) :=
  pbind (expectChar (fun c => c == '[') l) fun q1 =>
  let r := takeRun (fun c => !(c == ']')) q1.2
  if r.1.isEmpty then none
  else
    pbind (expectChar (fun c => c == ']') r.2) fun q2 =>
    some (r.1, q2.2)

/-- The four capture groups of `HEADER_RE`. -/
structure HeaderParts where
  ts : String
  src : String
  level : String
  rest : String
deriving DecidableEq, Repr

/-- `line.match(HEADER_RE)`: `some` of the four capture groups on a match,
`none` otherwise.  The final `(.*)$` succeeds exactly when no line terminator
remains (a split line contains no `\n`, and `$` cannot match before `\r`). -/
def matchHeader (line : String) : Option HeaderParts :=
  pbind (parseHeaderTs line.data) fun pts =>
  pbind (expectWs pts.2) fun l1 =>
  pbind (expectBracketTok l1) fun psrc =>
  pbind (expectWs psrc.2) fun l2 =>
  pbind (expectBracketTok l2) fun plvl =>
  pbind (expectWs plvl.2) fun l3 =>
  if l3.all (fun c => !jsLineTerminator c) then
    some ⟨String.mk pts.1, String.mk psrc.1, String.mk plvl.1, String.mk l3⟩
  else none

/-! ### The bare timestamp regular expression of the directory scanner

`/^(\d{4}-\d{2}-\d{2}T\d{2}:\d{2}:\d{2}(?:\.\d{3})?Z?)/` — no `i` flag,
`Z` optional, nothing required after the capture. -/

/-- `line.match(BARE_TS_RE)`: the captured prefix on a match. -/
def parseBareTs (l : List Char) : Option (List Char) :=
  pbind (expectDigits 4 l) fun p1 =>
  pbind (expectChar (fun c => c == '-') p1.2) fun q1 =>
  pbind (expectDigits 2 q1.2) fun p2 =>
  pbind (expectChar (fun c => c == '-') p2.2) fun q2 =>
  pbind (expectDigits 2 q2.2) fun p3 =>
  pbind (expectChar (fun c => c == 'T') p3.2) fun qt =>
  pbind (expectDigits 2 qt.2) fun p4 =>
  pbind (expectChar (fun c => c == ':') p4.2) fun q3 =>
  pbind (expectDigits 2 q3.2) fun p5 =>
  pbind (expectChar (fun c => c == ':') p5.2) fun q4 =>
  pbind (expectDigits 2 q4.2) fun p6 =>
  let ml := parseOptMillis p6.2
  let z : List Char :=
    match ml.2 with
    | 'Z' :: _ => ['Z']
    | _ => []
  some (p1.1 ++ q1.1 :: p2.1 ++ q2.1 :: p3.1 ++ qt.1 :: p4.1 ++ q3.1 :: p5.1 ++
    q4.1 :: p6.1 ++ ml.1 ++ z)

/-! ### Data model (src/types.ts) -/

structure LogEntry where
  timestamp : String
  level : String
  server_name : String
  tool_name : Option String
  message : String
  error_code : Option String := none
  stack_trace : Option String := none
  request_id : Option String := none
deriving DecidableEq, Repr

structure ServerInfo where
  server_name : String
  log_file_path : String
  last_modified : String
  total_errors : Nat
  recent_error_count : Nat
deriving DecidableEq, Repr

structure ErrorAnalysis where
  error : LogEntry
  root_cause : String
  suggested_actions : List String
  related_errors : List LogEntry
deriving DecidableEq, Repr

/-- One entry of the configured log directory: file name, `mtime` already
rendered as ISO-8601, and the file's text content. -/
structure DirEntry where
  name : String
  mtime : String
  content : String
deriving DecidableEq, Repr

/-! ### Constants (src/constants.ts) -/

def CHARACTER_LIMIT : Nat := 25000

def DEFAULT_ERROR_LIMIT : Nat := 10

def MAX_LOG_SCAN_LIMIT : Nat := 1000

/-! ### Truthiness and NaN-aware comparisons -/

/-- JS truthiness of an optional number (`undefined` and `0` are falsy). -/
def numTruthy : Option Int → Bool
  | none => false
  | some h => h != 0

/-- JS truthiness of an optional string (`undefined` and `""` are falsy). -/
def strTruthy : Option String → Bool
  | none => false
  | some s => s != ""

/-- `t < c` where `t` is `new Date(..).getTime()` (false on NaN). -/
def ltOpt : Option Int → Int → Bool
  | none, _ => false
  | some t, c => t < c

/-- `t > c` where `t` is `new Date(..).getTime()` (false on NaN). -/
def gtOpt : Option Int → Int → Bool
  | none, _ => false
  | some t, c => c < t

/-! ### Record extractor (`getErrorsFromTextLog`) -/

/-- The inner `while` of `getErrorsFromTextLog`: accumulate continuation
lines after an error header.  Blank lines are consumed without contributing
content; the first header-matching line stops the walk.  Returns the
accumulated chunks and the unconsumed remainder (the loop resumes there via
`i = j - 1`). -/
def collectBody : List String → List String × List String
  | [] => ([], [])
  | l :: ls =>
    if l == "" then collectBody ls
    else if (matchHeader l).isSome then ([], l :: ls)
    else
      let r := collectBody ls
      (l :: r.1, r.2)

/-- `/error/i.test(level)`. -/
def levelIsError (lvl : String) : Bool := strIncludes (jsToLower lvl) "error"

/-- The `toolName` filter: rejects when a truthy `toolName` is not a
case-insensitive substring of the full message. -/
def toolFilterRejects (toolName : Option String) (msg : String) : Bool :=
  match toolName with
  | none => false
  | some t => t != "" && !strIncludes (jsToLower msg) (jsToLower t)

/-- The outer `for` of `getErrorsFromTextLog`, in file order (before the
final `reverse`).  `count` is `errors.length` so far; the loop breaks once a
push reaches `limit`.  The index arithmetic of the source (`i = j - 1`)
becomes recursion on the unconsumed remainder; `fuel` starts at the number of
lines and strictly dominates the remainder's length throughout. -/
def extractLoop (getTime : String → Option Int) (hoursActive : Bool) (cutoff : Int)
    (serverName : String) (toolName : Option String) (limit : Nat) :
    Nat → Nat → List String → List LogEntry
  | _, _, [] => []
  | 0, _, _ :: _ => []
  | fuel + 1, count, l :: ls =>
    if l == "" then extractLoop getTime hoursActive cutoff serverName toolName limit fuel count ls
    else
      match matchHeader l with
      | none => extractLoop getTime hoursActive cutoff serverName toolName limit fuel count ls
      | some h =>
        if !levelIsError h.level then
          extractLoop getTime hoursActive cutoff serverName toolName limit fuel count ls
        else if hoursActive && ltOpt (getTime h.ts) cutoff then
          extractLoop getTime hoursActive cutoff serverName toolName limit fuel count ls
        else
          let body := collectBody ls
          let fullMessage := jsTrim (joinWith "\n" (h.rest :: body.1))
          if toolFilterRejects toolName fullMessage then
            extractLoop getTime hoursActive cutoff serverName toolName limit fuel count body.2
          else
            let entry : LogEntry :=
              { timestamp := h.ts
                level := "ERROR"
                server_name := if serverName != "" then serverName else h.src
                tool_name := none
                message := fullMessage }
            if count + 1 ≥ limit then [entry]
            else entry :: extractLoop getTime hoursActive cutoff serverName toolName limit
                            fuel (count + 1) body.2

/-- The entries collected by `getErrorsFromTextLog` in file order
(old → new), before the final `reverse`. -/
def extractAll (getTime : String → Option Int) (now : Int) (content : String)
    (serverName : String) (limit : Nat) (toolName : Option String)
    (hours : Option Int) : List LogEntry :=
  let lines := jsSplitLines content
  let cutoff : Int := if numTruthy hours then now - (hours.getD 0) * 3600000 else 0
  extractLoop getTime (numTruthy hours) cutoff serverName toolName limit
    lines.length 0 lines

/-- `getErrorsFromTextLog`, given the file's content: collect error entries
in file order, then `reverse` (newest first if the file is chronological). -/
def getErrorsFromTextLog (getTime : String → Option Int) (now : Int) (content : String)
    (serverName : String) (limit : Nat) (toolName : Option String)
    (hours : Option Int) : List LogEntry :=
  (extractAll getTime now content serverName limit toolName hours).reverse

/-! ### Directory scanner (`getAvailableServers`) -/

/-- `file.startsWith("mcp-server-") && file.endsWith(".log")`. -/
def isMcpLogFile (name : String) : Bool :=
  isPrefixOfChars "mcp-server-".data name.data &&
  isPrefixOfChars ".log".data.reverse name.data.reverse

/-- `file.replace(/\.(log|txt)$/, "")`. -/
def stripLogExt (s : String) : String :=
  if isPrefixOfChars ".log".data.reverse s.data.reverse then
    String.mk (s.data.take (s.data.length - 4))
  else if isPrefixOfChars ".txt".data.reverse s.data.reverse then
    String.mk (s.data.take (s.data.length - 4))
  else s

/-- The second replace of the name derivation (pattern `^.*-` replaced by the
empty string).  `.` does not match a line terminator, so greedy `.*-` can
only reach the last hyphen of the maximal terminator-free prefix: when that
prefix contains a hyphen, everything up to and including its last hyphen is
removed and the remainder of the string (from the first terminator on) is
kept; otherwise the regex does not match and the string is unchanged. -/
def afterLastHyphen (s : String) : String :=
  if (s.data.takeWhile (fun c => !jsLineTerminator c)).contains '-' then
    String.mk
      (((s.data.takeWhile (fun c => !jsLineTerminator c)).reverse.takeWhile
          (fun c => !(c == '-'))).reverse ++
        s.data.dropWhile (fun c => !jsLineTerminator c))
  else s

/-- Server name derivation of the scanner. -/
def deriveServerName (file : String) : String := afterLastHyphen (stripLogExt file)

/-- One line of the scanner's counting loop: the error test is a literal
substring check for either exact casing. -/
def isErrorCountLine (line : String) : Bool :=
  strIncludes line "ERROR" || strIncludes line "error"

/-- Among counted error lines, "recent" means the line starts with a bare ISO
timestamp whose parsed time is after `now - 24h`. -/
def recentErrorLine (getTime : String → Option Int) (now : Int) (line : String) : Bool :=
  match parseBareTs line.data with
  | none => false
  | some ts => gtOpt (getTime (String.mk ts)) (now - 24 * 60 * 60 * 1000)

/-- The scanner's per-file counting loop: `(totalErrors, recentErrors)`. -/
def scanLineCounts (getTime : String → Option Int) (now : Int) :
    List String → Nat × Nat
  | [] => (0, 0)
  | l :: ls =>
    let r := scanLineCounts getTime now ls
    if isErrorCountLine l then
      (r.1 + 1, if recentErrorLine getTime now l then r.2 + 1 else r.2)
    else r

/-- The `ServerInfo` built for one matching directory entry. -/
def mkServerInfo (getTime : String → Option Int) (now : Int) (logDir : String)
    (e : DirEntry) : ServerInfo :=
  let counts := scanLineCounts getTime now (jsSplitLines e.content)
  { server_name := deriveServerName e.name
    log_file_path := logDir ++ "/" ++ e.name
    last_modified := e.mtime
    total_errors := counts.1
    recent_error_count := counts.2 }

/-- `getAvailableServers`: one `ServerInfo` per file matching
`mcp-server-*.log`, in directory order. -/
def getAvailableServers (getTime : String → Option Int) (now : Int) (logDir : String)
    (dir : List DirEntry) : List ServerInfo :=
  (dir.filter (fun e => isMcpLogFile e.name)).map (mkServerInfo getTime now logDir)

/-! ### Server-name resolution and the query engine -/

/-- The three comparisons of `findLogPath`, in source order: exact, then
`-`→`_` normalized, then `_`→`-` normalized. -/
def hyphToUnder (s : String) : String :=
  String.mk (s.data.map (fun c => if c == '-' then '_' else c))

def underToHyph (s : String) : String :=
  String.mk (s.data.map (fun c => if c == '_' then '-' else c))

def serverMatches (serverName : String) (s : ServerInfo) : Bool :=
  s.server_name == serverName ||
  hyphToUnder s.server_name == serverName ||
  underToHyph s.server_name == serverName

/-- The `servers.find(...)` of `findLogPath`, over a given server list. -/
def findLogPathIn (servers : List ServerInfo) (serverName : String) : Option String :=
  (servers.find? (serverMatches serverName)).map (fun s => s.log_file_path)

/-- `findLogPath`. -/
def findLogPath (getTime : String → Option Int) (now : Int) (logDir : String)
    (dir : List DirEntry) (serverName : String) : Option String :=
  findLogPathIn (getAvailableServers getTime now logDir dir) serverName

/-- `fs.readFileSync` at a path produced by the scanner. -/
def readLogFile (logDir : String) (dir : List DirEntry) (p : String) : Option String :=
  (dir.find? (fun e => logDir ++ "/" ++ e.name == p)).map (fun e => e.content)

/-- `getRecentErrors`: throws (modelled as `.error`) when the server name
resolves to no log file, with a message enumerating the known server names. -/
def getRecentErrors (getTime : String → Option Int) (now : Int) (logDir : String)
    (dir : List DirEntry) (serverName : String) (limit : Nat)
    (toolName : Option String) (hours : Option Int) : Except String (List LogEntry) :=
  match findLogPath getTime now logDir dir serverName with
  | none =>
    .error ("Log file not found for server: " ++ serverName ++ ". Available servers: " ++
      joinWith ", " ((getAvailableServers getTime now logDir dir).map
        (fun s => s.server_name)))
  | some p =>
    match readLogFile logDir dir p with
    | none => .error ("ENOENT: no such file " ++ p)
    | some content =>
      .ok (getErrorsFromTextLog getTime now content serverName limit toolName hours)

/-! ### Root-cause classifier (`generateErrorAnalysis`) -/

/-- The keyword chain of `generateErrorAnalysis`: root cause and base
suggested actions, before the related-count post-processing.  The `if/else`
chain evaluates the categories in source order, first match wins, on the
lower-cased message. -/
def classifyBase (message : String) : String × List String :=
  let m := jsToLower message
  if strIncludes m "permission" || strIncludes m "unauthorized" ||
     strIncludes m "권한" || strIncludes m "forbidden" then
    ("Permission or authorization error",
     ["Check if the required API credentials are properly configured",
      "Verify that the API key or token has the necessary permissions",
      "Ensure the user has access to the requested resource",
      "Review the API documentation for required OAuth scopes or permissions"])
  else if strIncludes m "rate limit" || strIncludes m "too many requests" ||
          strIncludes m "429" then
    ("API rate limit exceeded",
     ["Implement exponential backoff for API requests",
      "Reduce the frequency of API calls",
      "Consider caching responses to minimize API usage",
      "Check if you can upgrade to a higher rate limit tier"])
  else if strIncludes m "timeout" || strIncludes m "timed out" then
    ("Request timeout",
     ["Increase the timeout duration in the API configuration",
      "Check network connectivity",
      "Verify that the target service is responsive",
      "Consider breaking large requests into smaller chunks"])
  else if strIncludes m "not found" || strIncludes m "404" then
    ("Resource not found",
     ["Verify that the resource ID or identifier is correct",
      "Check if the resource has been deleted or moved",
      "Ensure you're using the correct API endpoint",
      "Confirm the resource exists before attempting to access it"])
  else if strIncludes m "network" || strIncludes m "connection" ||
          strIncludes m "econnrefused" then
    ("Network connectivity issue",
     ["Check your internet connection",
      "Verify firewall settings are not blocking the connection",
      "Try again after a short delay",
      "Ensure the target service is online and accessible"])
  else if strIncludes m "invalid" || strIncludes m "malformed" ||
          strIncludes m "validation" then
    ("Invalid input or malformed request",
     ["Validate input parameters before making the API call",
      "Check the API documentation for correct request format",
      "Ensure all required fields are provided",
      "Verify data types match the API expectations"])
  else if strIncludes m "authentication" || strIncludes m "unauthenticated" ||
          strIncludes m "401" then
    ("Authentication failed",
     ["Verify API credentials are correct and not expired",
      "Check if the authentication token needs to be refreshed",
      "Ensure credentials are properly configured in environment variables"])
  else if strIncludes m "server error" || strIncludes m "500" ||
          strIncludes m "503" then
    ("Server-side error",
     ["The error is on the service provider's side",
      "Try again after a few minutes",
      "Check the service status page for known outages",
      "Contact the service provider if the issue persists"])
  else
    ("Unknown error occurred", [])

/-- The repeated-occurrence warning that is `unshift`ed when more than two
related errors were found.  `n` is `relatedErrors.length + 1`. -/
def occurredWarning (n : Nat) : String :=
  "⚠️ This error has occurred " ++ toString n ++
  " times. Consider implementing a permanent fix rather than retrying."

/-- The first-occurrence note appended when no related error was found. -/
def firstOccurrenceNote : String :=
  "This is the first occurrence of this error - monitor for patterns"

/-- `generateErrorAnalysis`: classify, then post-process the action list by
the number of related errors already found (which the caller capped at 5). -/
def generateErrorAnalysis (e : LogEntry) (relatedErrors : List LogEntry) :
    String × List String :=
  let base := classifyBase e.message
  let actions :=
    if relatedErrors.length > 2 then
      occurredWarning (relatedErrors.length + 1) :: base.2
    else if relatedErrors.length == 0 then
      base.2 ++ [firstOccurrenceNote]
    else base.2
  (base.1, actions)

/-! ### Error analysis (`analyzeError`) -/

/-- Drop the stack trace (`{ ...e, stack_trace: undefined }`). -/
def stripStack (e : LogEntry) : LogEntry := { e with stack_trace := none }

/-- The body of `analyzeError` after the errors have been fetched: find the
first message containing the search string case-insensitively (`null` when
none), gather up to 5 related errors with the exactly equal message and a
different timestamp, and classify. -/
def analyzeCore (errors : List LogEntry) (errorMessage : String)
    (includeStackTrace : Bool) : Option ErrorAnalysis :=
  match errors.find?
      (fun e => strIncludes (jsToLower e.message) (jsToLower errorMessage)) with
  | none => none
  | some matchingError =>
    let relatedErrors :=
      (errors.filter (fun e =>
        e.message == matchingError.message &&
        !(e.timestamp == matchingError.timestamp))).take 5
    let analysis := generateErrorAnalysis matchingError relatedErrors
    some
      { error := if includeStackTrace then matchingError else stripStack matchingError
        root_cause := analysis.1
        suggested_actions := analysis.2
        related_errors :=
          if includeStackTrace then relatedErrors else relatedErrors.map stripStack }

/-- `analyzeError`: fetch up to `MAX_LOG_SCAN_LIMIT` errors (propagating the
not-found failure), then analyze; a search string matching no message yields
`.ok none`, not a failure. -/
def analyzeError (getTime : String → Option Int) (now : Int) (logDir : String)
    (dir : List DirEntry) (serverName : String) (errorMessage : String)
    (includeStackTrace : Bool) : Except String (Option ErrorAnalysis) :=
  match getRecentErrors getTime now logDir dir serverName MAX_LOG_SCAN_LIMIT
      none none with
  | .error e => .error e
  | .ok errors => .ok (analyzeCore errors errorMessage includeStackTrace)

/-! ### Response truncation (src/services/formatter.ts) -/

/-- The fixed notice appended to a truncated response. -/
def truncationNotice (truncatedLength itemCount : Nat) : String :=
  "\n\n---\n\n**⚠️ Response Truncated**\n\nThe full response exceeded " ++
  toString CHARACTER_LIMIT ++ " characters. Showing first " ++
  toString truncatedLength ++ " characters of " ++ toString itemCount ++
  " item(s).\n\nTo see more:\n- Use filters to narrow results (e.g., specify tool_name or hours)\n- Reduce the limit parameter\n- Query for specific errors using mcp_log_get_error_details"

/-- `truncateIfNeeded`: a result within `CHARACTER_LIMIT` is returned
unchanged; otherwise its first `CHARACTER_LIMIT - 500` characters plus the
notice. -/
def truncateIfNeeded (content : String) (itemCount : Nat) : String :=
  if content.length ≤ CHARACTER_LIMIT then content
  else
    let truncatedLength := CHARACTER_LIMIT - 500
    String.mk (content.data.take truncatedLength) ++
      truncationNotice truncatedLength itemCount

/-! ### Spec-side descriptions

The following definitions restate parts of the specification in declarative
form; the theorems below compare them with the embedded implementation. -/

/-- Spec-side description of a message body: the physical lines up to (but
excluding) the next header-matching line, with empty lines removed. -/
def bodySpec (ls : List String) : List String :=
  (ls.takeWhile (fun x => (matchHeader x).isNone)).filter (fun x => !(x == ""))

/-- The full multi-line message the spec promises for a header with
REST-OF-LINE `rest` followed by the lines `ls`. -/
def messageSpec (rest : String) (ls : List String) : String :=
  jsTrim (joinWith "\n" (rest :: bodySpec ls))

/-- Exactly `n` decimal digits. -/
def digitsOfLen (n : Nat) (l : List Char) : Prop :=
  l.length = n ∧ ∀ c ∈ l, isDigitChar c = true

/-- The optional milliseconds group of the spec's timestamp grammar. -/
def validMillis (ms : List Char) : Prop :=
  ms = [] ∨ ∃ ds, digitsOfLen 3 ds ∧ ms = '.' :: ds

/-- A bracketed token body: non-empty, no closing bracket. -/
def validTok (t : List Char) : Prop :=
  t ≠ [] ∧ ∀ c ∈ t, ¬c = ']'

/-- A REST-OF-LINE the grammar can carry: no line terminator (the line is the
result of splitting on newlines) and no leading whitespace (which `\s+` of
the header pattern would have consumed). -/
def plainRestB (rest : String) : Bool :=
  rest.data.all (fun c => !jsLineTerminator c) &&
  (match rest.data.head? with
   | none => true
   | some c => !jsWhitespace c)

def plainRest (rest : String) : Prop := plainRestB rest = true

instance (n : Nat) (l : List Char) : Decidable (digitsOfLen n l) :=
  inferInstanceAs (Decidable (l.length = n ∧ ∀ c ∈ l, isDigitChar c = true))

instance (t : List Char) : Decidable (validTok t) :=
  inferInstanceAs (Decidable (t ≠ [] ∧ ∀ c ∈ t, ¬c = ']'))

instance (rest : String) : Decidable (plainRest rest) :=
  inferInstanceAs (Decidable (plainRestB rest = true))

/-- The characters of a spec timestamp `YYYY-MM-DDTHH:MM:SS` followed by the
(possibly empty) milliseconds group — without any trailing `Z`. -/
def isoTsChars (y mo d hh mi ss ms : List Char) : List Char :=
  y ++ '-' :: mo ++ '-' :: d ++ 'T' :: hh ++ ':' :: mi ++ ':' :: ss ++ ms

/-- A full header line `TS [SRC] [LEVEL] REST` built from raw pieces, with
single-space separators. -/
def headerLineOf (ts a b : List Char) (rest : String) : String :=
  String.mk (ts ++ ' ' :: '[' :: a ++ ']' :: ' ' :: '[' :: b ++ ']' :: ' ' :: rest.data)

/-- Lexicographic order on character lists: the sense in which ISO-8601
timestamps are sortable. -/
def lexLe : List Char → List Char → Bool
  | [], _ => true
  | _ :: _, [] => false
  | a :: as, b :: bs => a < b || (a == b && lexLe as bs)

/-- The classifier's complete keyword table, in evaluation order. -/
def keywordList : List String :=
  ["permission", "unauthorized", "권한", "forbidden",
   "rate limit", "too many requests", "429",
   "timeout", "timed out",
   "not found", "404",
   "network", "connection", "econnrefused",
   "invalid", "malformed", "validation",
   "authentication", "unauthenticated", "401",
   "server error", "500", "503"]

/-- Whether any keyword of the classifier table occurs (case-insensitively)
in a message. -/
def mentionsAnyKeyword (m : String) : Bool :=
  keywordList.any (fun k => strIncludes (jsToLower m) k)

/-- Decidable equality for thrown-or-returned results, so that concrete
scenario checks can be evaluated. -/
instance {ε α : Type} [DecidableEq ε] [DecidableEq α] : DecidableEq (Except ε α) :=
  fun a b =>
    match a, b with
    | .error x, .error y =>
      if h : x = y then isTrue (by rw [h])
      else isFalse (fun hc => h (by injection hc))
    | .ok x, .ok y =>
      if h : x = y then isTrue (by rw [h])
      else isFalse (fun hc => h (by injection hc))
    | .error _, .ok _ => isFalse (fun hc => Except.noConfusion hc)
    | .ok _, .error _ => isFalse (fun hc => Except.noConfusion hc)

/-! ### Concrete fixtures used by witnesses and counterexamples -/

/-- A `Date` parser that treats every string as an Invalid Date; the
scenarios below never exercise the time filters. -/
def gtNone : String → Option Int := fun _ => none

/-- A directory with a single one-error log file. -/
def oneDir : List DirEntry :=
  [⟨"mcp-server-ctx.log", "2025-01-05T00:00:00.000Z",
    "2025-01-01T00:00:00Z [ctx] [error] boom"⟩]

/-- A log whose two error records appear newest-first, violating the
chronologically-ascending file assumption. -/
def descLog : String :=
  "2025-01-02T00:00:00Z [s] [error] b\n2025-01-01T00:00:00Z [s] [error] a"

/-- The same two records in ascending order. -/
def ascLog : String :=
  "2025-01-01T00:00:00Z [s] [error] a\n2025-01-02T00:00:00Z [s] [error] b"

/-- Ten error records carrying the identical message `boom` at ten distinct
timestamps. -/
def tenLog : String :=
  "2025-01-01T00:00:00Z [s] [error] boom\n" ++
  "2025-01-02T00:00:00Z [s] [error] boom\n" ++
  "2025-01-03T00:00:00Z [s] [error] boom\n" ++
  "2025-01-04T00:00:00Z [s] [error] boom\n" ++
  "2025-01-05T00:00:00Z [s] [error] boom\n" ++
  "2025-01-06T00:00:00Z [s] [error] boom\n" ++
  "2025-01-07T00:00:00Z [s] [error] boom\n" ++
  "2025-01-08T00:00:00Z [s] [error] boom\n" ++
  "2025-01-09T00:00:00Z [s] [error] boom\n" ++
  "2025-01-10T00:00:00Z [s] [error] boom"

/-- A directory holding `tenLog`. -/
def tenDir : List DirEntry :=
  [⟨"mcp-server-s.log", "2025-01-10T00:00:00.000Z", tenLog⟩]

/-- 25001 characters, one more than `CHARACTER_LIMIT` allows. -/
def longContent : String := String.mk (List.replicate 25001 'a')

/-- A directory whose single file name carries a line terminator before a
later hyphen, so the name-derivation regex keeps that hyphen. -/
def termDir : List DirEntry := [⟨"mcp-server-a\nb-c.log", "m", ""⟩]

/-! ## Helper lemmas -/

theorem isPrefixOfChars_refl (l : List Char) : isPrefixOfChars l l = true := by
  induction l with
  | nil => rfl
  | cons c t ih => simp [isPrefixOfChars, ih]

theorem containsChars_self (l : List Char) : containsChars l l = true := by
  cases l with
  | nil => rfl
  | cons c t => simp [containsChars, isPrefixOfChars_refl]

theorem strIncludes_self (s : String) : strIncludes s s = true :=
  containsChars_self s.data

theorem mk_data (s : String) : String.mk s.data = s := rfl

theorem map_id_of_forall {α : Type} {f : α → α} :
    ∀ {l : List α}, (∀ c ∈ l, f c = c) → l.map f = l
  | [], _ => rfl
  | c :: t, h => by
    rw [List.map_cons, h c (List.mem_cons_self c t),
      map_id_of_forall (fun x hx => h x (List.mem_cons_of_mem c hx))]

/-! ## C7 — classifier table -/

/-- C7: the classifier maps "403 Forbidden: missing scope" to the
permission/authorization root cause with exactly the four base actions of
that category; "Request timed out after 30s" to "Request timeout"; any
message containing the keyword "forbidden" is classified by the earlier
permission category (first match wins); and a message containing none of the
table's keywords yields "Unknown error occurred" with an empty base action
list. -/
theorem classifier_cases :
    classifyBase "403 Forbidden: missing scope" =
      ("Permission or authorization error",
       ["Check if the required API credentials are properly configured",
        "Verify that the API key or token has the necessary permissions",
        "Ensure the user has access to the requested resource",
        "Review the API documentation for required OAuth scopes or permissions"]) ∧
    (classifyBase "Request timed out after 30s").1 = "Request timeout" ∧
    (∀ m, strIncludes (jsToLower m) "forbidden" = true →
      (classifyBase m).1 = "Permission or authorization error") ∧
    (∀ m, mentionsAnyKeyword m = false →
      classifyBase m = ("Unknown error occurred", [])) := by
  refine ⟨by decide, by decide, ?_, ?_⟩
  · intro m h
    simp [classifyBase, h]
  · intro m h
    rw [mentionsAnyKeyword, List.any_eq_false] at h
    have hp : ∀ k ∈ keywordList, strIncludes (jsToLower m) k = false := by
      intro k hk
      simpa using h k hk
    simp [classifyBase,
      hp "permission" (by decide), hp "unauthorized" (by decide),
      hp "권한" (by decide), hp "forbidden" (by decide),
      hp "rate limit" (by decide), hp "too many requests" (by decide),
      hp "429" (by decide),
      hp "timeout" (by decide), hp "timed out" (by decide),
      hp "not found" (by decide), hp "404" (by decide),
      hp "network" (by decide), hp "connection" (by decide),
      hp "econnrefused" (by decide),
      hp "invalid" (by decide), hp "malformed" (by decide),
      hp "validation" (by decide),
      hp "authentication" (by decide), hp "unauthenticated" (by decide),
      hp "401" (by decide),
      hp "server error" (by decide), hp "500" (by decide),
      hp "503" (by decide)]

/-- Witness for `classifier_cases`: the two quantified parts evaluated on
concrete messages. -/
theorem classifier_cases_witness :
    (classifyBase "forbidden timeout").1 = "Permission or authorization error" ∧
    classifyBase "all good here" = ("Unknown error occurred", []) :=
  ⟨classifier_cases.2.2.1 "forbidden timeout" (by decide),
   classifier_cases.2.2.2 "all good here" (by decide)⟩

/-! ## C9 — response truncation -/

/-- C9: a formatted result within `CHARACTER_LIMIT` characters is returned
unchanged; a longer one becomes its first `CHARACTER_LIMIT - 500` characters
followed by the fixed truncation notice naming the original item count. -/
theorem truncation_behavior (content : String) (itemCount : Nat) :
    (content.length ≤ CHARACTER_LIMIT →
      truncateIfNeeded content itemCount = content) ∧
    (CHARACTER_LIMIT < content.length →
      truncateIfNeeded content itemCount =
        String.mk (content.data.take (CHARACTER_LIMIT - 500)) ++
          truncationNotice (CHARACTER_LIMIT - 500) itemCount) := by
  constructor
  · intro h
    simp [truncateIfNeeded, h]
  · intro h
    simp [truncateIfNeeded, Nat.not_le.mpr h]

/-- Witness for `truncation_behavior`: a short string passes through
unchanged; a 25001-character string is truncated. -/
theorem truncation_behavior_witness :
    truncateIfNeeded "abc" 1 = "abc" ∧
    truncateIfNeeded longContent 2 =
      String.mk (longContent.data.take (CHARACTER_LIMIT - 500)) ++
        truncationNotice (CHARACTER_LIMIT - 500) 2 :=
  ⟨(truncation_behavior "abc" 1).1 (by decide),
   (truncation_behavior longContent 2).2 (by
     show CHARACTER_LIMIT < longContent.length
     have h : longContent.length = 25001 := by
       rw [longContent]
       show (List.replicate 25001 'a').length = 25001
       exact List.length_replicate 25001 'a'
     rw [h]; decide)⟩

/-! ## C6 — server-name resolution by hyphen/underscore normalization -/

/-- C6: against a server list containing an entry named `slack-mcp` (and no
earlier entry matching), the identifier `slack_mcp` resolves to that entry's
log file: the exact comparison fails, the hyphen-to-underscore normalized
comparison succeeds, and the first matching server wins. -/
theorem server_resolution_normalization (pre post : List ServerInfo) (s : ServerInfo)
    (hname : s.server_name = "slack-mcp")
    (hpre : ∀ t ∈ pre, serverMatches "slack_mcp" t = false) :
    (s.server_name == "slack_mcp") = false ∧
    (hyphToUnder s.server_name == "slack_mcp") = true ∧
    findLogPathIn (pre ++ s :: post) "slack_mcp" = some s.log_file_path := by
  have hs : serverMatches "slack_mcp" s = true := by
    rw [serverMatches, hname]
    decide
  refine ⟨by rw [hname]; decide, by rw [hname]; decide, ?_⟩
  induction pre with
  | nil =>
    simp [findLogPathIn, List.find?_cons_of_pos _ hs]
  | cons t ts ih =>
    have ht : ¬serverMatches "slack_mcp" t = true := by
      simp [hpre t (List.mem_cons_self t ts)]
    simpa [findLogPathIn, List.find?_cons_of_neg _ ht] using
      ih (fun u hu => hpre u (List.mem_cons_of_mem t hu))

/-- Witness for `server_resolution_normalization`: a concrete two-entry
server list. -/
theorem server_resolution_normalization_witness :
    findLogPathIn
      [⟨"github", "/logs/mcp-server-x-github.log", "m", 0, 0⟩,
       ⟨"slack-mcp", "/logs/mcp-server-slack-mcp.log", "m", 3, 1⟩]
      "slack_mcp" = some "/logs/mcp-server-slack-mcp.log" :=
  (server_resolution_normalization
    [⟨"github", "/logs/mcp-server-x-github.log", "m", 0, 0⟩] []
    ⟨"slack-mcp", "/logs/mcp-server-slack-mcp.log", "m", 3, 1⟩
    rfl (by decide)).2.2

/-! ## C10 — derived server names and hyphens -/

/-- Counterexample to C10 as stated: the file `mcp-server-a\nb-c.log` passes
the scanner's filter, but `.` of the removal regex cannot cross the line
terminator, so the derived name is `a\nb-c` — it retains a hyphen — and the
hyphen-to-underscore normalized comparison then matches the identifier
`a\nb_c`, which the exact comparison does not; resolution actually resolves
that identifier to the file. -/
theorem derived_names_hyphen_free_counterexample :
    ((getAvailableServers gtNone 0 "/logs" termDir).map (fun s => s.server_name)) =
      ["a\nb-c"] ∧
    ('-' ∈ ("a\nb-c" : String).data) ∧
    (("a\nb-c" : String) == "a\nb_c") = false ∧
    (hyphToUnder "a\nb-c" == "a\nb_c") = true ∧
    findLogPathIn (getAvailableServers gtNone 0 "/logs" termDir) "a\nb_c" =
      some "/logs/mcp-server-a\nb-c.log" := by
  refine ⟨by decide, by decide, by decide, by decide, by decide⟩

theorem afterLastHyphen_hyphen_free {s : String}
    (hterm : ∀ c ∈ s.data, jsLineTerminator c = false) :
    ∀ c ∈ (afterLastHyphen s).data, ¬c = '-' := by
  have hhead : s.data.takeWhile (fun c => !jsLineTerminator c) = s.data :=
    List.takeWhile_eq_self_iff.mpr (fun a ha => by simp [hterm a ha])
  intro c hc
  rw [afterLastHyphen] at hc
  by_cases hcont :
      (s.data.takeWhile (fun c => !jsLineTerminator c)).contains '-' = true
  · rw [if_pos hcont] at hc
    have hdrop : s.data.dropWhile (fun c => !jsLineTerminator c) = [] :=
      List.dropWhile_eq_nil_iff.mpr (fun a ha => by simp [hterm a ha])
    rw [hhead, hdrop, List.append_nil] at hc
    have hc' : c ∈ s.data.reverse.takeWhile (fun c => !(c == '-')) :=
      List.mem_reverse.mp hc
    have hp := List.mem_takeWhile_imp hc'
    simpa using hp
  · rw [if_neg hcont] at hc
    rw [hhead] at hcont
    intro hceq
    subst hceq
    exact hcont (List.elem_iff.mpr hc)

theorem stripLogExt_no_term {s : String}
    (h : ∀ c ∈ s.data, jsLineTerminator c = false) :
    ∀ c ∈ (stripLogExt s).data, jsLineTerminator c = false := by
  intro c hc
  rw [stripLogExt] at hc
  by_cases h1 : isPrefixOfChars ".log".data.reverse s.data.reverse = true
  · rw [if_pos h1] at hc
    exact h c (List.mem_of_mem_take hc)
  · rw [if_neg h1] at hc
    by_cases h2 : isPrefixOfChars ".txt".data.reverse s.data.reverse = true
    · rw [if_pos h2] at hc
      exact h c (List.mem_of_mem_take hc)
    · rw [if_neg h2] at hc
      exact h c hc

theorem hyphToUnder_eq_self {s : String} (h : ∀ c ∈ s.data, ¬c = '-') :
    hyphToUnder s = s := by
  rw [hyphToUnder]
  rw [map_id_of_forall (f := fun c => if c == '-' then '_' else c)
    (fun c hc => by simp [h c hc])]

/-- C10 (amended): every server name the scanner derives from a file name
containing no line terminator (the `.` of the removal regex cannot cross
one) contains no hyphen, so for such directories the hyphen-to-underscore
normalized comparison of the resolver coincides with the exact comparison on
scanner output.  (A file name carrying a line terminator before a later
hyphen retains that hyphen, see the counterexample.) -/
theorem derived_names_hyphen_free (getTime : String → Option Int) (now : Int)
    (logDir : String) (dir : List DirEntry) (s : ServerInfo)
    (hs : s ∈ getAvailableServers getTime now logDir dir)
    (hdir : ∀ e ∈ dir, ∀ c ∈ e.name.data, jsLineTerminator c = false) :
    (∀ c ∈ s.server_name.data, ¬c = '-') ∧
    hyphToUnder s.server_name = s.server_name ∧
    (∀ id, (hyphToUnder s.server_name == id) = (s.server_name == id)) := by
  obtain ⟨e, hef, rfl⟩ := List.mem_map.mp hs
  have hed : e ∈ dir := (List.mem_filter.mp hef).1
  have h1 : ∀ c ∈ (mkServerInfo getTime now logDir e).server_name.data, ¬c = '-' := by
    simpa [mkServerInfo, deriveServerName] using
      afterLastHyphen_hyphen_free (stripLogExt_no_term (hdir e hed))
  have h2 := hyphToUnder_eq_self h1
  exact ⟨h1, h2, fun id => by rw [h2]⟩

/-- Witness for `derived_names_hyphen_free`: the server derived from
`mcp-server-slack-mcp.log` (whose name is `mcp`). -/
theorem derived_names_hyphen_free_witness :
    hyphToUnder
      (mkServerInfo gtNone 0 "/logs" ⟨"mcp-server-slack-mcp.log", "m", ""⟩).server_name =
      (mkServerInfo gtNone 0 "/logs" ⟨"mcp-server-slack-mcp.log", "m", ""⟩).server_name :=
  (derived_names_hyphen_free gtNone 0 "/logs"
    [⟨"mcp-server-slack-mcp.log", "m", ""⟩]
    (mkServerInfo gtNone 0 "/logs" ⟨"mcp-server-slack-mcp.log", "m", ""⟩)
    (by decide) (by decide)).2.1

/-! ## C8 — scanner error counts -/

theorem scanLineCounts_eq_countP (getTime : String → Option Int) (now : Int) :
    ∀ lines : List String,
      scanLineCounts getTime now lines =
        (lines.countP isErrorCountLine,
         lines.countP (fun l => isErrorCountLine l && recentErrorLine getTime now l)) := by
  intro lines
  induction lines with
  | nil => rfl
  | cons l ls ih =>
    rw [scanLineCounts, ih, List.countP_cons, List.countP_cons]
    by_cases h1 : isErrorCountLine l = true
    · by_cases h2 : recentErrorLine getTime now l = true
      · simp [h1, h2]
      · simp [h1, h2]
    · simp [h1]

/-- C8: for every file the scanner lists, `total_errors` is the number of
physical lines containing the literal substring `ERROR` or the literal
substring `error` (no other casing counts), and `recent_error_count` is the
number of those lines that additionally start with a bare ISO timestamp
parsed to a time within the last 24 hours of the scan. -/
theorem scanner_counts (getTime : String → Option Int) (now : Int)
    (logDir : String) (dir : List DirEntry) (e : DirEntry)
    (he : e ∈ dir) (hname : isMcpLogFile e.name = true) :
    mkServerInfo getTime now logDir e ∈ getAvailableServers getTime now logDir dir ∧
    (mkServerInfo getTime now logDir e).total_errors =
      (jsSplitLines e.content).countP
        (fun l => strIncludes l "ERROR" || strIncludes l "error") ∧
    (mkServerInfo getTime now logDir e).recent_error_count =
      (jsSplitLines e.content).countP
        (fun l => (strIncludes l "ERROR" || strIncludes l "error") &&
          recentErrorLine getTime now l) := by
  have hfun : isErrorCountLine =
      (fun l => strIncludes l "ERROR" || strIncludes l "error") :=
    funext (fun _ => rfl)
  refine ⟨List.mem_map_of_mem _ (List.mem_filter.mpr ⟨he, hname⟩), ?_, ?_⟩
  · simp [mkServerInfo, scanLineCounts_eq_countP, hfun]
  · simp [mkServerInfo, scanLineCounts_eq_countP, isErrorCountLine]

/-- Witness for `scanner_counts`: a five-line file with three counted error
lines, none recent under an always-invalid date parser. -/
theorem scanner_counts_witness :
    (mkServerInfo gtNone 0 "/logs"
      ⟨"mcp-server-demo.log", "m",
       "x ERROR y\nplain\nan error here\nError capital only\n2025-01-01T00:00:00Z error ts"⟩).total_errors =
      (jsSplitLines
        "x ERROR y\nplain\nan error here\nError capital only\n2025-01-01T00:00:00Z error ts").countP
        (fun l => strIncludes l "ERROR" || strIncludes l "error") :=
  (scanner_counts gtNone 0 "/logs"
    [⟨"mcp-server-demo.log", "m",
      "x ERROR y\nplain\nan error here\nError capital only\n2025-01-01T00:00:00Z error ts"⟩]
    ⟨"mcp-server-demo.log", "m",
     "x ERROR y\nplain\nan error here\nError capital only\n2025-01-01T00:00:00Z error ts"⟩
    (by decide) (by decide)).2.1

/-! ## C5 — related-errors cap and occurrence warning -/

/-- Counterexample to C5 as stated: on a log of ten entries sharing the
identical message, `analyzeError` does return exactly 5 related errors, but
the leading warning action reports the error occurring 6 times (the related
list is capped at 5 before the count is formed), not 11 times. -/
theorem related_cap_warning_counterexample :
    ((analyzeError gtNone 0 "/logs" tenDir "s" "boom" false).toOption.join.map
      (fun a => (a.related_errors.length, a.suggested_actions.head?))) =
      some (5, some (occurredWarning 6)) ∧
    strIncludes (occurredWarning 6) "11 times" = false ∧
    strIncludes (occurredWarning 6) "6 times" = true := by
  refine ⟨by decide, by decide, by decide⟩

/-- C5 (amended): for a log whose extraction yields ten error entries with
an exactly identical message and pairwise distinct timestamps, `analyzeError`
on that message returns exactly 5 related errors and its suggested actions
begin with a warning stating the error occurred 6 times (the related count
is capped at 5 before the `+1`). -/
theorem related_cap_warning (e : LogEntry) (rest : List LogEntry)
    (includeStackTrace : Bool)
    (hlen : rest.length = 9)
    (hmsg : ∀ x ∈ rest, x.message = e.message)
    (hts : ∀ x ∈ rest, ¬x.timestamp = e.timestamp) :
    ∃ a, analyzeCore (e :: rest) e.message includeStackTrace = some a ∧
      a.related_errors.length = 5 ∧
      a.suggested_actions.head? = some (occurredWarning 6) := by
  have hfind : (e :: rest).find?
      (fun x => strIncludes (jsToLower x.message) (jsToLower e.message)) = some e :=
    List.find?_cons_of_pos _ (strIncludes_self _)
  have hfilter : (e :: rest).filter
      (fun x => x.message == e.message && !(x.timestamp == e.timestamp)) = rest := by
    rw [List.filter_cons]
    have he : (e.message == e.message && !(e.timestamp == e.timestamp)) = false := by
      simp
    rw [he, if_neg Bool.false_ne_true]
    rw [List.filter_eq_self.mpr]
    intro x hx
    simp [hmsg x hx, hts x hx]
  have htake : (rest.take 5).length = 5 := by
    simp [List.length_take, hlen]
  simp only [analyzeCore, hfind, hfilter]
  refine ⟨_, rfl, ?_, ?_⟩
  · cases includeStackTrace with
    | false =>
      show (List.map stripStack (rest.take 5)).length = 5
      rw [List.length_map]
      exact htake
    | true => exact htake
  · show (generateErrorAnalysis e (rest.take 5)).2.head? = some (occurredWarning 6)
    rw [generateErrorAnalysis]
    simp only [htake]
    rfl

/-- Witness for `related_cap_warning`: a concrete ten-entry list. -/
theorem related_cap_warning_witness :
    ∃ a, analyzeCore
        (⟨"2025-01-10T00:00:00Z", "ERROR", "s", none, "boom", none, none, none⟩ ::
          (List.range 9).map (fun i =>
            ⟨"2025-01-0" ++ toString (9 - i) ++ "T00:00:00Z", "ERROR", "s", none,
             "boom", none, none, none⟩))
        "boom" false = some a ∧
      a.related_errors.length = 5 ∧
      a.suggested_actions.head? = some (occurredWarning 6) :=
  related_cap_warning
    ⟨"2025-01-10T00:00:00Z", "ERROR", "s", none, "boom", none, none, none⟩
    ((List.range 9).map (fun i =>
      ⟨"2025-01-0" ++ toString (9 - i) ++ "T00:00:00Z", "ERROR", "s", none,
       "boom", none, none, none⟩))
    false (by decide) (by decide) (by decide)

/-! ## C4 — not-found failure versus no-match null -/

/-- C4: `getRecentErrors` fails exactly when the server identifier resolves
to no log file, and the failure message enumerates the currently known
server names; a resolvable server always yields a normal result; and
`analyzeError` on a resolvable server whose extracted messages never contain
the search string case-insensitively returns a null analysis, not a
failure. -/
theorem not_found_vs_no_match (getTime : String → Option Int) (now : Int)
    (logDir : String) (dir : List DirEntry) (serverName : String) (limit : Nat)
    (toolName : Option String) (hours : Option Int) (errorMessage : String)
    (includeStackTrace : Bool) :
    (findLogPath getTime now logDir dir serverName = none →
      getRecentErrors getTime now logDir dir serverName limit toolName hours =
        .error ("Log file not found for server: " ++ serverName ++
          ". Available servers: " ++
          joinWith ", " ((getAvailableServers getTime now logDir dir).map
            (fun s => s.server_name)))) ∧
    (∀ p, findLogPath getTime now logDir dir serverName = some p →
      ∃ es, getRecentErrors getTime now logDir dir serverName limit toolName hours =
        .ok es) ∧
    (∀ es, getRecentErrors getTime now logDir dir serverName MAX_LOG_SCAN_LIMIT
        none none = .ok es →
      (∀ x ∈ es, strIncludes (jsToLower x.message) (jsToLower errorMessage) = false) →
      analyzeError getTime now logDir dir serverName errorMessage
        includeStackTrace = .ok none) := by
  refine ⟨?_, ?_, ?_⟩
  · intro h
    rw [getRecentErrors, h]
  · intro p hp
    obtain ⟨s, hfind, rfl⟩ := Option.map_eq_some'.mp hp
    have hmem : s ∈ getAvailableServers getTime now logDir dir :=
      List.mem_of_find?_eq_some hfind
    obtain ⟨e, hef, rfl⟩ := List.mem_map.mp hmem
    have hed : e ∈ dir := (List.mem_filter.mp hef).1
    have hfs : (List.find? (fun x =>
        logDir ++ "/" ++ x.name == (mkServerInfo getTime now logDir e).log_file_path)
        dir).isSome :=
      List.find?_isSome.mpr ⟨e, hed, by simp [mkServerInfo]⟩
    obtain ⟨e', he'⟩ := Option.isSome_iff_exists.mp hfs
    have hcontent : readLogFile logDir dir
        (mkServerInfo getTime now logDir e).log_file_path = some e'.content := by
      rw [readLogFile, he']
      rfl
    refine ⟨getErrorsFromTextLog getTime now e'.content serverName limit toolName
      hours, ?_⟩
    rw [getRecentErrors, hp]
    dsimp only
    rw [hcontent]
  · intro es hok hall
    have hnone : es.find?
        (fun x => strIncludes (jsToLower x.message) (jsToLower errorMessage)) = none :=
      List.find?_eq_none.mpr (fun x hx => by simp [hall x hx])
    simp only [analyzeError, hok, analyzeCore, hnone]

/-- Witness for `not_found_vs_no_match`: on a one-file directory, an unknown
name fails with the enumerating message, a known name succeeds, and a
never-matching search yields a null analysis. -/
theorem not_found_vs_no_match_witness :
    (getRecentErrors gtNone 0 "/logs" oneDir "zzz" 10 none none =
      .error ("Log file not found for server: " ++ "zzz" ++
        ". Available servers: " ++
        joinWith ", " ((getAvailableServers gtNone 0 "/logs" oneDir).map
          (fun s => s.server_name)))) ∧
    (∃ es, getRecentErrors gtNone 0 "/logs" oneDir "ctx" 10 none none = .ok es) ∧
    (analyzeError gtNone 0 "/logs" oneDir "ctx" "nomatch" false = .ok none) :=
  ⟨(not_found_vs_no_match gtNone 0 "/logs" oneDir "zzz" 10 none none "x" false).1
    (by decide),
   (not_found_vs_no_match gtNone 0 "/logs" oneDir "ctx" 10 none none "x" false).2.1
    "/logs/mcp-server-ctx.log" (by decide),
   (not_found_vs_no_match gtNone 0 "/logs" oneDir "ctx" 10 none none "nomatch"
      false).2.2
    [⟨"2025-01-01T00:00:00Z", "ERROR", "ctx", none, "boom", none, none, none⟩]
    (by decide) (by decide)⟩

/-! ## C3 — result cap and ordering -/

theorem extractLoop_length_le (getTime : String → Option Int) (hoursActive : Bool)
    (cutoff : Int) (serverName : String) (toolName : Option String) (limit : Nat) :
    ∀ fuel count ls, count < limit →
      (extractLoop getTime hoursActive cutoff serverName toolName limit
        fuel count ls).length ≤ limit - count := by
  intro fuel
  induction fuel with
  | zero =>
    intro count ls _
    cases ls <;> simp [extractLoop]
  | succ f ih =>
    intro count ls hcount
    cases ls with
    | nil => simp [extractLoop]
    | cons l ls =>
      rw [extractLoop]
      by_cases h0 : (l == "") = true
      · rw [if_pos h0]
        exact ih count ls hcount
      · rw [if_neg h0]
        cases hm : matchHeader l with
        | none =>
          simp only [hm]
          exact ih count ls hcount
        | some h =>
          simp only [hm]
          by_cases h1 : (!levelIsError h.level) = true
          · rw [if_pos h1]
            exact ih count ls hcount
          · rw [if_neg h1]
            by_cases h2 : (hoursActive && ltOpt (getTime h.ts) cutoff) = true
            · rw [if_pos h2]
              exact ih count ls hcount
            · rw [if_neg h2]
              by_cases h3 : toolFilterRejects toolName
                  (jsTrim (joinWith "\n" (h.rest :: (collectBody ls).1))) = true
              · rw [if_pos h3]
                exact ih count (collectBody ls).2 hcount
              · rw [if_neg h3]
                by_cases h4 : count + 1 ≥ limit
                · rw [if_pos h4]
                  simp only [List.length_cons, List.length_nil]
                  omega
                · rw [if_neg h4]
                  simp only [List.length_cons]
                  have := ih (count + 1) (collectBody ls).2 (by omega)
                  omega

/-- Counterexample to C3 as stated: a log file whose two error records are
written newest-first.  After extraction and reversal the returned timestamps
are strictly increasing, so the result is not non-increasing for every file
content. -/
theorem recent_errors_order_counterexample :
    ((getErrorsFromTextLog gtNone 0 descLog "s" 10 none none).map
      (fun e => e.timestamp)) =
      ["2025-01-01T00:00:00Z", "2025-01-02T00:00:00Z"] ∧
    lexLe "2025-01-02T00:00:00Z".data "2025-01-01T00:00:00Z".data = false := by
  refine ⟨by decide, by decide⟩

/-- C3 (amended): for every log file content and positive limit,
`recentErrors` returns at most `limit` entries; and whenever the entries
collected in file order carry non-decreasing timestamps (the documented
chronologically-ascending file assumption), the returned entries are
non-increasing in timestamp from first to last. -/
theorem recent_errors_cap_and_order (getTime : String → Option Int) (now : Int)
    (content serverName : String) (limit : Nat) (toolName : Option String)
    (hours : Option Int) (hlimit : 1 ≤ limit) :
    (getErrorsFromTextLog getTime now content serverName limit toolName
      hours).length ≤ limit ∧
    (List.Pairwise (fun a b : LogEntry => lexLe a.timestamp.data b.timestamp.data = true)
        (extractAll getTime now content serverName limit toolName hours) →
      List.Pairwise (fun a b : LogEntry => lexLe b.timestamp.data a.timestamp.data = true)
        (getErrorsFromTextLog getTime now content serverName limit toolName
          hours)) := by
  constructor
  · rw [getErrorsFromTextLog, List.length_reverse]
    have := extractLoop_length_le getTime (numTruthy hours)
      (if numTruthy hours then now - (hours.getD 0) * 3600000 else 0)
      serverName toolName limit (jsSplitLines content).length 0
      (jsSplitLines content) (by omega)
    calc (extractAll getTime now content serverName limit toolName hours).length
        ≤ limit - 0 := this
      _ = limit := by omega
  · intro hpair
    rw [getErrorsFromTextLog]
    exact List.pairwise_reverse.mpr hpair

/-- Witness for `recent_errors_cap_and_order`: an ascending two-record log
at limit 10. -/
theorem recent_errors_cap_and_order_witness :
    (getErrorsFromTextLog gtNone 0 ascLog "s" 10 none none).length ≤ 10 ∧
    List.Pairwise (fun a b : LogEntry => lexLe b.timestamp.data a.timestamp.data = true)
      (getErrorsFromTextLog gtNone 0 ascLog "s" 10 none none) :=
  ⟨(recent_errors_cap_and_order gtNone 0 ascLog "s" 10 none none
      (by decide)).1,
   (recent_errors_cap_and_order gtNone 0 ascLog "s" 10 none none
      (by decide)).2 (by decide)⟩

/-! ## C1 — message accumulation -/

theorem matchHeader_empty : matchHeader "" = none := rfl

theorem collectBody_eq (ls : List String) :
    (collectBody ls).1 = bodySpec ls := by
  induction ls with
  | nil => rfl
  | cons l ls ih =>
    by_cases h0 : (l == "") = true
    · have hl : l = "" := by simpa using h0
      subst hl
      simp [collectBody, bodySpec, List.takeWhile_cons, matchHeader_empty, ih]
    · cases hm : matchHeader l with
      | some h =>
        simp [collectBody, bodySpec, h0, hm, List.takeWhile_cons]
      | none =>
        simpa [collectBody, bodySpec, h0, hm, List.takeWhile_cons] using ih

/-- C1: whenever the extractor accepts an error header line (and its entry
survives the time and tool filters), the produced `LogEntry` message is
REST-OF-LINE followed by every subsequent physical line up to (but
excluding) the next header-matching line, with empty lines removed, joined
with newline and trimmed — i.e. exactly `messageSpec`. -/
theorem extracted_message_joins_body (getTime : String → Option Int)
    (hoursActive : Bool) (cutoff : Int) (serverName : String)
    (toolName : Option String) (limit fuel count : Nat)
    (l : String) (ls : List String) (h : HeaderParts)
    (hmatch : matchHeader l = some h)
    (hlevel : levelIsError h.level = true)
    (htime : (hoursActive && ltOpt (getTime h.ts) cutoff) = false)
    (htool : toolFilterRejects toolName (messageSpec h.rest ls) = false) :
    (extractLoop getTime hoursActive cutoff serverName toolName limit
        (fuel + 1) count (l :: ls)).head? =
      some { timestamp := h.ts
             level := "ERROR"
             server_name := if serverName != "" then serverName else h.src
             tool_name := none
             message := messageSpec h.rest ls } := by
  have h0 : (l == "") = false := by
    cases he : (l == "") with
    | false => rfl
    | true =>
      have hl : l = "" := by simpa using he
      rw [hl, matchHeader_empty] at hmatch
      cases hmatch
  have hbody : jsTrim (joinWith "\n" (h.rest :: (collectBody ls).1)) =
      messageSpec h.rest ls := by
    rw [collectBody_eq, messageSpec]
  rw [extractLoop, if_neg (by simp [h0])]
  simp only [hmatch]
  rw [if_neg (by simp [hlevel]), if_neg (by simp [htime]), hbody,
    if_neg (by simp [htool])]
  by_cases h4 : count + 1 ≥ limit
  · rw [if_pos h4]
    rfl
  · rw [if_neg h4]
    rfl

/-- Witness for `extracted_message_joins_body`: a header followed by two
content lines separated by a blank line. -/
theorem extracted_message_joins_body_witness :
    (extractLoop gtNone false 0 "" none 10 3 0
        ["2025-10-29T18:00:46.468Z [context7] [error] Server disconnected",
         "  detail", "", "more"]).head? =
      some { timestamp := "2025-10-29T18:00:46.468Z"
             level := "ERROR"
             server_name := if ("" : String) != "" then "" else "context7"
             tool_name := none
             message := messageSpec "Server disconnected" ["  detail", "", "more"] } :=
  extracted_message_joins_body gtNone false 0 "" none 10 2 0
    "2025-10-29T18:00:46.468Z [context7] [error] Server disconnected"
    ["  detail", "", "more"]
    ⟨"2025-10-29T18:00:46.468Z", "context7", "error", "Server disconnected"⟩
    (by decide) (by decide) (by decide) (by decide)

/-! ## C2 — the trailing Z of the header timestamp -/

theorem pbind_eq_some {α β : Type} {o : Option α} {f : α → Option β} {b : β} :
    pbind o f = some b ↔ ∃ a, o = some a ∧ f a = some b := by
  cases o <;> simp [pbind]

theorem expectChar_eq_some {p : Char → Bool} {l : List Char} {q : Char × List Char}
    (h : expectChar p l = some q) : p q.1 = true ∧ l = q.1 :: q.2 := by
  cases l with
  | nil => cases h
  | cons a t =>
    rw [expectChar] at h
    by_cases hp : p a = true
    · rw [if_pos hp] at h
      injection h with h'
      subst h'
      exact ⟨hp, rfl⟩
    · rw [if_neg hp] at h
      cases h

theorem expectDigits_exact : ∀ {ds : List Char} {n : Nat}, ds.length = n →
    (∀ c ∈ ds, isDigitChar c = true) →
    ∀ rest, expectDigits n (ds ++ rest) = some (ds, rest) := by
  intro ds
  induction ds with
  | nil =>
    intro n hlen _ rest
    rw [← hlen]
    rfl
  | cons c t ih =>
    intro n hlen hdig rest
    rw [← hlen]
    rw [List.cons_append, List.length_cons, expectDigits,
      if_pos (hdig c (List.mem_cons_self c t)),
      ih rfl (fun x hx => hdig x (List.mem_cons_of_mem c hx)) rest]
    rfl

theorem takeRun_stop {p : Char → Bool} {c : Char} (hc : p c = false) :
    ∀ {tok : List Char}, (∀ x ∈ tok, p x = true) →
    ∀ rest, takeRun p (tok ++ c :: rest) = (tok, c :: rest) := by
  intro tok
  induction tok with
  | nil =>
    intro _ rest
    rw [List.nil_append, takeRun, if_neg (by simp [hc])]
  | cons a t ih =>
    intro htok rest
    rw [List.cons_append, takeRun,
      if_pos (htok a (List.mem_cons_self a t)),
      ih (fun x hx => htok x (List.mem_cons_of_mem a hx)) rest]

theorem takeRun_nil_of_head {p : Char → Bool} {l : List Char}
    (h : ∀ c, l.head? = some c → p c = false) : takeRun p l = ([], l) := by
  cases l with
  | nil => rfl
  | cons c t => rw [takeRun, if_neg (by simp [h c rfl])]

theorem jsWhitespace_space : jsWhitespace ' ' = true := by decide

theorem jsWhitespace_lbracket : jsWhitespace '[' = false := by decide

theorem parseOptMillis_append {ms : List Char} (hms : validMillis ms) {c : Char}
    (hc : ¬c = '.') (after : List Char) :
    parseOptMillis (ms ++ c :: after) = (ms, c :: after) := by
  cases hms with
  | inl h =>
    subst h
    rw [List.nil_append, parseOptMillis.eq_def]
    split
    · rename_i rest heq
      injection heq with h1 _
      exact absurd h1 hc
    · rfl
  | inr h =>
    obtain ⟨ds, hds, rfl⟩ := h
    rw [List.cons_append]
    simp [parseOptMillis, expectDigits_exact hds.1 hds.2]

/-- The single-step shape of a successful timestamp parse: the captured
characters always end with the `Z` (or `z`) consumed last. -/
theorem parseHeaderTs_ends_z {l : List Char} {pts : List Char × List Char}
    (h : parseHeaderTs l = some pts) :
    ∃ pre zc, pts.1 = pre ++ [zc] ∧ (zc == 'Z' || zc == 'z') = true := by
  rw [parseHeaderTs] at h
  simp only [pbind_eq_some] at h
  obtain ⟨p1, e1, q1, e2, p2, e3, q2, e4, p3, e5, qt, e6, p4, e7, q3, e8, p5, e9,
    q4, e10, p6, e11, qz, e12, hfin⟩ := h
  obtain ⟨hz, -⟩ := expectChar_eq_some e12
  injection hfin with h13
  rw [← h13]
  exact ⟨p1.1 ++ q1.1 :: p2.1 ++ q2.1 :: p3.1 ++ qt.1 :: p4.1 ++ q3.1 :: p5.1 ++
    q4.1 :: p6.1 ++ (parseOptMillis p6.2).1, qz.1, by simp, hz⟩

theorem parseHeaderTs_build {y mo d hh mi ss ms : List Char} {zc : Char}
    (hy : digitsOfLen 4 y) (hmo : digitsOfLen 2 mo) (hd : digitsOfLen 2 d)
    (hhh : digitsOfLen 2 hh) (hmi : digitsOfLen 2 mi) (hss : digitsOfLen 2 ss)
    (hms : validMillis ms) (hz : (zc == 'Z' || zc == 'z') = true)
    (after : List Char) :
    parseHeaderTs (isoTsChars y mo d hh mi ss ms ++ zc :: after) =
      some (isoTsChars y mo d hh mi ss ms ++ [zc], after) := by
  have hzor : zc = 'Z' ∨ zc = 'z' := by simpa using hz
  have hzdot : ¬zc = '.' := by
    rcases hzor with rfl | rfl <;> decide
  simp [parseHeaderTs, isoTsChars, pbind, expectChar,
    List.cons_append, List.append_assoc,
    expectDigits_exact hy.1 hy.2, expectDigits_exact hmo.1 hmo.2,
    expectDigits_exact hd.1 hd.2, expectDigits_exact hhh.1 hhh.2,
    expectDigits_exact hmi.1 hmi.2, expectDigits_exact hss.1 hss.2,
    parseOptMillis_append hms hzdot, hz, hzor]

theorem parseHeaderTs_no_z {y mo d hh mi ss ms : List Char}
    (hy : digitsOfLen 4 y) (hmo : digitsOfLen 2 mo) (hd : digitsOfLen 2 d)
    (hhh : digitsOfLen 2 hh) (hmi : digitsOfLen 2 mi) (hss : digitsOfLen 2 ss)
    (hms : validMillis ms) (after : List Char) :
    parseHeaderTs (isoTsChars y mo d hh mi ss ms ++ ' ' :: after) = none := by
  have hsp : ((' ' == 'Z') || (' ' == 'z')) = false := by decide
  have hspP : ¬(' ' = 'Z' ∨ ' ' = 'z') := by decide
  have hdot : ¬(' ' = '.') := by decide
  simp [parseHeaderTs, isoTsChars, pbind, expectChar,
    List.cons_append, List.append_assoc,
    expectDigits_exact hy.1 hy.2, expectDigits_exact hmo.1 hmo.2,
    expectDigits_exact hd.1 hd.2, expectDigits_exact hhh.1 hhh.2,
    expectDigits_exact hmi.1 hmi.2, expectDigits_exact hss.1 hss.2,
    parseOptMillis_append hms hdot, hsp, hspP]

theorem matchHeader_ts_ends_z {line : String} {h : HeaderParts}
    (hm : matchHeader line = some h) :
    ∃ pre zc, h.ts.data = pre ++ [zc] ∧ (zc == 'Z' || zc == 'z') = true := by
  rw [matchHeader] at hm
  simp only [pbind_eq_some] at hm
  obtain ⟨pts, hts, l1, -, psrc, -, l2, -, plvl, -, l3, -, hfin⟩ := hm
  obtain ⟨pre, zc, hpre, hz⟩ := parseHeaderTs_ends_z hts
  have hts' : h.ts = String.mk pts.1 := by
    by_cases hcond : l3.all (fun c => !jsLineTerminator c) = true
    · rw [if_pos hcond] at hfin
      injection hfin with hh
      rw [← hh]
    · rw [if_neg hcond] at hfin
      cases hfin
  rw [hts']
  exact ⟨pre, zc, hpre, hz⟩

theorem header_accepts_grammar {y mo d hh mi ss ms a b : List Char} {zc : Char}
    {rest : String}
    (hy : digitsOfLen 4 y) (hmo : digitsOfLen 2 mo) (hd : digitsOfLen 2 d)
    (hhh : digitsOfLen 2 hh) (hmi : digitsOfLen 2 mi) (hss : digitsOfLen 2 ss)
    (hms : validMillis ms) (hz : (zc == 'Z' || zc == 'z') = true)
    (ha : validTok a) (hb : validTok b) (hrest : plainRest rest) :
    matchHeader (headerLineOf (isoTsChars y mo d hh mi ss ms ++ [zc]) a b rest) =
      some ⟨String.mk (isoTsChars y mo d hh mi ss ms ++ [zc]),
            String.mk a, String.mk b, rest⟩ := by
  have hA0 : a.isEmpty = false := by
    cases a with
    | nil => exact absurd rfl ha.1
    | cons x t => rfl
  have hB0 : b.isEmpty = false := by
    cases b with
    | nil => exact absurd rfl hb.1
    | cons x t => rfl
  have htokA : ∀ x ∈ a, (!(x == ']')) = true := fun x hx => by simp [ha.2 x hx]
  have htokB : ∀ x ∈ b, (!(x == ']')) = true := fun x hx => by simp [hb.2 x hx]
  rw [plainRest, plainRestB, Bool.and_eq_true] at hrest
  have hterm : rest.data.all (fun c => !jsLineTerminator c) = true := hrest.1
  have hhead : ∀ c, rest.data.head? = some c → jsWhitespace c = false := by
    intro c hc
    have h2 := hrest.2
    rw [hc] at h2
    simpa using h2
  have hdata : (headerLineOf (isoTsChars y mo d hh mi ss ms ++ [zc]) a b rest).data =
      isoTsChars y mo d hh mi ss ms ++ zc ::
        (' ' :: ('[' :: (a ++ (']' :: (' ' :: ('[' :: (b ++
          (']' :: (' ' :: rest.data))))))))) := by
    simp [headerLineOf, isoTsChars, List.cons_append, List.append_assoc]
  rw [matchHeader, hdata,
    parseHeaderTs_build hy hmo hd hhh hmi hss hms hz]
  simp [pbind, expectWs, expectBracketTok, expectChar, takeRun,
    jsWhitespace_space, jsWhitespace_lbracket,
    takeRun_stop (show (!(']' == ']')) = false by decide) htokA,
    takeRun_stop (show (!(']' == ']')) = false by decide) htokB,
    hA0, hB0, ha.1, hb.1, takeRun_nil_of_head hhead, hterm, mk_data]
  intro x hx
  have hx' := List.all_eq_true.mp hterm x hx
  simpa using hx'

theorem header_rejects_no_z {y mo d hh mi ss ms a b : List Char} {rest : String}
    (hy : digitsOfLen 4 y) (hmo : digitsOfLen 2 mo) (hd : digitsOfLen 2 d)
    (hhh : digitsOfLen 2 hh) (hmi : digitsOfLen 2 mi) (hss : digitsOfLen 2 ss)
    (hms : validMillis ms) :
    matchHeader (headerLineOf (isoTsChars y mo d hh mi ss ms) a b rest) = none := by
  have hdata : (headerLineOf (isoTsChars y mo d hh mi ss ms) a b rest).data =
      isoTsChars y mo d hh mi ss ms ++ ' ' ::
        ('[' :: (a ++ (']' :: (' ' :: ('[' :: (b ++
          (']' :: (' ' :: rest.data)))))))) := by
    simp [headerLineOf, isoTsChars, List.cons_append, List.append_assoc]
  rw [matchHeader, hdata,
    parseHeaderTs_no_z hy hmo hd hhh hmi hss hms]
  rfl

/-- Counterexample to C2 as stated: a line whose timestamp lacks the
trailing `Z` but otherwise matches the grammar is NOT treated as a header
line (with or without milliseconds), while the same line with `Z` is. -/
theorem header_z_required_counterexample :
    matchHeader "2025-10-29T18:00:46.468 [context7] [error] boom" = none ∧
    matchHeader "2025-10-29T18:00:46 [context7] [error] boom" = none ∧
    matchHeader "2025-10-29T18:00:46.468Z [context7] [error] boom" =
      some ⟨"2025-10-29T18:00:46.468Z", "context7", "error", "boom"⟩ := by
  refine ⟨by decide, by decide, by decide⟩

/-- C2 (amended): the extractor's header timestamp requires its trailing `Z`
(upper or lower case).  Every accepted header's captured timestamp ends in
`Z`/`z`; every line of the grammar's shape with the `Z` present is accepted
as a header with the expected capture groups; and the same line shape with
the `Z` missing is never treated as a header. -/
theorem header_z_required :
    (∀ (line : String) (h : HeaderParts), matchHeader line = some h →
      ∃ pre zc, h.ts.data = pre ++ [zc] ∧ (zc == 'Z' || zc == 'z') = true) ∧
    (∀ y mo d hh mi ss ms a b : List Char, ∀ zc : Char, ∀ rest : String,
      digitsOfLen 4 y → digitsOfLen 2 mo → digitsOfLen 2 d → digitsOfLen 2 hh →
      digitsOfLen 2 mi → digitsOfLen 2 ss → validMillis ms →
      (zc == 'Z' || zc == 'z') = true → validTok a → validTok b →
      plainRest rest →
      matchHeader (headerLineOf (isoTsChars y mo d hh mi ss ms ++ [zc]) a b rest) =
        some ⟨String.mk (isoTsChars y mo d hh mi ss ms ++ [zc]),
              String.mk a, String.mk b, rest⟩) ∧
    (∀ y mo d hh mi ss ms a b : List Char, ∀ rest : String,
      digitsOfLen 4 y → digitsOfLen 2 mo → digitsOfLen 2 d → digitsOfLen 2 hh →
      digitsOfLen 2 mi → digitsOfLen 2 ss → validMillis ms →
      matchHeader (headerLineOf (isoTsChars y mo d hh mi ss ms) a b rest) = none) :=
  ⟨fun _ _ hm => matchHeader_ts_ends_z hm,
   fun _ _ _ _ _ _ _ _ _ _ _ h1 h2 h3 h4 h5 h6 h7 h8 h9 h10 h11 =>
     header_accepts_grammar h1 h2 h3 h4 h5 h6 h7 h8 h9 h10 h11,
   fun _ _ _ _ _ _ _ _ _ _ h1 h2 h3 h4 h5 h6 h7 =>
     header_rejects_no_z h1 h2 h3 h4 h5 h6 h7⟩

/-- Witness for `header_z_required`: all three parts instantiated on the
timestamp 2025-10-29T18:00:46 with source `context7`, level `error` and
message `boom`. -/
theorem header_z_required_witness :
    (∃ pre zc,
      (HeaderParts.mk "2025-10-29T18:00:46Z" "context7" "error" "boom").ts.data =
        pre ++ [zc] ∧ (zc == 'Z' || zc == 'z') = true) ∧
    matchHeader (headerLineOf
        (isoTsChars "2025".data "10".data "29".data "18".data "00".data "46".data
          [] ++ ['Z']) "context7".data "error".data "boom") =
      some ⟨String.mk (isoTsChars "2025".data "10".data "29".data "18".data
              "00".data "46".data [] ++ ['Z']),
            String.mk "context7".data, String.mk "error".data, "boom"⟩ ∧
    matchHeader (headerLineOf
        (isoTsChars "2025".data "10".data "29".data "18".data "00".data "46".data
          []) "context7".data "error".data "boom") = none :=
  ⟨header_z_required.1 "2025-10-29T18:00:46Z [context7] [error] boom"
    ⟨"2025-10-29T18:00:46Z", "context7", "error", "boom"⟩ (by decide),
   header_z_required.2.1 "2025".data "10".data "29".data "18".data "00".data
    "46".data [] "context7".data "error".data 'Z' "boom"
    (by decide) (by decide) (by decide) (by decide) (by decide) (by decide)
    (Or.inl rfl) (by decide) (by decide) (by decide) (by decide),
   header_z_required.2.2 "2025".data "10".data "29".data "18".data "00".data
    "46".data [] "context7".data "error".data "boom"
    (by decide) (by decide) (by decide) (by decide) (by decide) (by decide)
    (Or.inl rfl)⟩

end ErrorRelay
